import Mathlib

/-!
# Verification of the `pure-hfsm` hierarchical state machine engine

Shallow embedding of the crate's data model and operations.

* `src/lib.rs` — handle types, `Target`, `State`, `StateMachine`,
  `StateMachines` (the compact store) and its accessors.
* `src/builder.rs` — the name-based description, `NameMapping` and the
  two-pass `build`.
* `src/label.rs` — the running state: `label.State`, `label.Machine`,
  `label.NestedMachine` and their `update` functions.

Machine integers: `SHandle` wraps a `u8` and `SmHandle` a `u16`; both are
modelled as `Nat`, and every source site performing an `as u8` / `as u16`
cast applies `% 256` / `% 65536` explicitly.  The type-erased
`StateData = Box<dyn Any>` payload is a type parameter `D`, with the
`Box::new(())` default passed in as `d0 : D`.  The `Behavior` and
`Transition` traits become explicit function parameters
`bUpdate : B → D → Updt → Wrd → D × Updt` (mutating the private data and
the update sink) and `tDecide : T → D → Wrd → Target × D` (mutating the
private data and returning a `Target`).  Rust `&mut self` methods return
their updated receiver; fallible ones pair an `Except` with it.
-/

set_option autoImplicit false

/-- `State` handle (source: `pub struct SHandle(SHandleInner)` with
`type SHandleInner = u8`, src/lib.rs).  The `u8` payload is a `Nat`;
the builder and the enumeration methods apply `% 256` at their `as u8`
cast sites. -/
structure SHandle where
  val : Nat
  deriving DecidableEq, Repr

/-- `StateMachine` handle (source: `pub struct SmHandle(SmHandleInner)` with
`type SmHandleInner = u16`, src/lib.rs); `as u16` cast sites apply `% 65536`. -/
structure SmHandle where
  val : Nat
  deriving DecidableEq, Repr

/-- `SHandle::INITIAL = SHandle(0)` (src/lib.rs). -/
def SHandle.INITIAL : SHandle := ⟨0⟩

/-- Result of a transition (source: `crate::Target`, src/lib.rs). -/
inductive Target where
  | Continue
  | Goto (h : SHandle)
  | Enter (h : SmHandle)
  | Complete
  deriving DecidableEq, Repr

/-- State and the transitions in a state machine (source: `crate::State`,
src/lib.rs). -/
structure State (B T : Type) where
  transitions : List T
  behavior : B
  deriving DecidableEq, Repr

/-- Source: `crate::StateMachine`, src/lib.rs (`SmallVec` of states modelled
as a list). -/
structure StateMachine (B T : Type) where
  states : List (State B T)
  deriving DecidableEq, Repr

variable {B T D Updt Wrd Trs : Type}

/-- `StateMachine::state`: `self.states.get(state.0 as usize)`. -/
def StateMachine.state (m : StateMachine B T) (state : SHandle) :
    Option (State B T) :=
  m.states.get? state.val

/-- A collection of state machines, the compact store
(source: `crate::StateMachines`, src/lib.rs). -/
structure StateMachines (B T : Type) where
  machines : List (StateMachine B T)
  machine_names : List String
  state_names : List (List String)
  deriving DecidableEq, Repr

/-- `StateMachines::machines`: enumerate all machine names with their
handles; the handle is `SmHandle(i as u16)`, hence `i % 65536`. -/
def StateMachines.machinesEnum (ms : StateMachines B T) :
    List (SmHandle × String) :=
  ms.machine_names.enum.map (fun p => (⟨p.1 % 65536⟩, p.2))

/-- `StateMachines::states`: enumerate the state names of one machine with
their handles; the handle is `SHandle(i as u8)`, hence `i % 256`. -/
def StateMachines.statesEnum (ms : StateMachines B T) (machine : SmHandle) :
    Option (List (SHandle × String)) :=
  (ms.state_names.get? machine.val).map
    (fun names => names.enum.map (fun p => (⟨p.1 % 256⟩, p.2)))

/-- `StateMachines::machine`: `self.machines.get(machine.0 as usize)`. -/
def StateMachines.machine (ms : StateMachines B T) (machine : SmHandle) :
    Option (StateMachine B T) :=
  ms.machines.get? machine.val

/-- `StateMachines::state_name` (src/lib.rs). -/
def StateMachines.state_name (ms : StateMachines B T) (machine : SmHandle)
    (state : SHandle) : Option String :=
  (ms.state_names.get? machine.val).bind (fun names => names.get? state.val)

/-- `StateMachines::machine_name` (src/lib.rs). -/
def StateMachines.machine_name (ms : StateMachines B T) (machine : SmHandle) :
    Option String :=
  ms.machine_names.get? machine.val

/-- `StateMachines::machine_handle`: `self.machines().find(|hn| hn.1 == name)
.map(|hn| hn.0)`. -/
def StateMachines.machine_handle (ms : StateMachines B T) (name : String) :
    Option SmHandle :=
  (ms.machinesEnum.find? (fun hn => hn.2 == name)).map (fun hn => hn.1)

/-- Potential errors from running a state machine (source: `crate::Error`). -/
inductive Error where
  | EmptyStack
  | BadMachineName
  | BadStateName
  deriving DecidableEq, Repr

/-- Aliases used where a `label`/`builder` namespace would otherwise shadow
the crate-level name. -/
abbrev CrateState (B T : Type) := State B T

abbrev CrateTarget := Target

abbrev CrateStateMachines (B T : Type) := StateMachines B T

/-! ## Builder (src/builder.rs) -/

/-- Serialized transition target (source: `builder::Target`). -/
inductive builder.Target where
  | Goto (name : String)
  | Enter (name : String)
  | End
  deriving DecidableEq, Repr

/-- Source: `builder::NameMapping`, two `AHashMap<String, _>` maps.  A hash
map is modelled as an association list where `insert` prepends, so that a
first-match `List.lookup` returns the most recently inserted binding,
exactly as `HashMap::get` after `insert`. -/
structure builder.NameMapping where
  state_names : List (String × Nat)
  machine_names : List (String × Nat)
  deriving DecidableEq, Repr

/-- `NameMapping::new`. -/
def builder.NameMapping.new : builder.NameMapping := ⟨[], []⟩

/-- `AHashMap::insert` on the association-list model. -/
def hmInsert (key : String) (v : Nat) (m : List (String × Nat)) :
    List (String × Nat) :=
  (key, v) :: m

/-- `NameMapping::goto`: look the state name up and wrap it in
`Target::Goto`. -/
def builder.NameMapping.goto (m : builder.NameMapping) (name : String) :
    Option CrateTarget :=
  (m.state_names.lookup name).map (fun t => (.Goto ⟨t⟩ : CrateTarget))

/-- `NameMapping::enter`: look the machine name up and wrap it in
`Target::Enter`. -/
def builder.NameMapping.enter (m : builder.NameMapping) (name : String) :
    Option CrateTarget :=
  (m.machine_names.lookup name).map (fun t => (.Enter ⟨t⟩ : CrateTarget))

/-- `NameMapping::target`. -/
def builder.NameMapping.target (m : builder.NameMapping) :
    builder.Target → Option CrateTarget
  | .Goto name => m.goto name
  | .Enter name => m.enter name
  | .End => some (.Complete : CrateTarget)

/-- Source: `builder::State`. -/
structure builder.State (B T : Type) where
  name : String
  behavior : B
  transitions : List T

/-- Source: `builder::StateMachine`. -/
structure builder.StateMachine (B T : Type) where
  name : String
  states : List (builder.State B T)

/-- Source: `builder::StateMachines(pub Vec<StateMachine<B, T>>)`. -/
abbrev builder.StateMachines (B T : Type) := List (builder.StateMachine B T)

/-- Inner loop of `build`'s first pass (src/builder.rs lines 131-134): insert
every state name of one machine with `si as SHandleInner`, i.e. `si % 256`,
into the single `state_names` map. -/
def builder.pass1States :
    Nat → List (builder.State B T) → builder.NameMapping →
    builder.NameMapping
  | _, [], m => m
  | si, s :: rest, m =>
    builder.pass1States (si + 1) rest
      { m with state_names := hmInsert s.name (si % 256) m.state_names }

/-- First pass of `build` (src/builder.rs lines 122-135): walk machines in
declaration order, inserting each machine name with `mi as SmHandleInner`
(`mi % 65536`) and then all of its state names. -/
def builder.pass1 :
    Nat → builder.StateMachines B T → builder.NameMapping →
    builder.NameMapping
  | _, [], m => m
  | mi, sm :: rest, m =>
    builder.pass1 (mi + 1) rest
      (builder.pass1States 0 sm.states
        { m with machine_names := hmInsert sm.name (mi % 65536) m.machine_names })

/-- The complete `NameMapping` recorded by `build`'s first pass. -/
def builder.buildMapping (d : builder.StateMachines B T) :
    builder.NameMapping :=
  builder.pass1 0 d builder.NameMapping.new

/-- `builder::StateMachines::build` (src/builder.rs): the first pass records
the name tables and the `NameMapping`; the second pass converts every
transition through `IntoTransition::into_with` applied to that (fully built)
mapping.  `intoWith` stands for the consumer's `IntoTransition<Trs>` impl. -/
def builder.StateMachines.build (intoWith : T → builder.NameMapping → Trs)
    (d : builder.StateMachines B T) : CrateStateMachines B Trs :=
  { machines := d.map (fun sm =>
      { states := sm.states.map (fun s =>
          { transitions :=
              s.transitions.map (fun t => intoWith t (builder.buildMapping d)),
            behavior := s.behavior }) }),
    machine_names := d.map (fun sm => sm.name),
    state_names := d.map (fun sm => sm.states.map (fun s => s.name)) }

/-- Specification view of pass 1's state insertions: every
(state name, truncated within-machine declaration index) pair, in overall
declaration order. -/
def builder.stateDecls (d : builder.StateMachines B T) :
    List (String × Nat) :=
  (d.map (fun sm => sm.states.enum.map (fun p => (p.2.name, p.1 % 256)))).flatten

/-- Specification view of pass 1's machine insertions. -/
def builder.machineDecls (d : builder.StateMachines B T) :
    List (String × Nat) :=
  d.enum.map (fun p => (p.2.name, p.1 % 65536))

/-! ## Running state (src/label.rs) -/

/-- Source: `label::Complete`, the result of one `update`. -/
inductive label.Complete where
  | Done
  | Running
  deriving DecidableEq, Repr

/-- Data for an individual state (source: `label::State`): current handle,
the behavior's private data, and the lazily created per-transition data
slots. -/
structure label.State (D : Type) where
  handle : SHandle
  behavior : D
  transitions : Option (List D)
  deriving DecidableEq, Repr

/-- `label::State::new`: fresh private data (`behavior: Box::new(())`,
`transitions: None`). -/
def label.State.new (d0 : D) (handle : SHandle) : label.State D :=
  ⟨handle, d0, none⟩

/-- The transition loop of `label::State::update` (src/label.rs lines
48-55): walk `state.transitions.iter().zip(trans_data)` in order, running
`decide` on each private-data slot; stop at the first non-`Continue`
target, leaving the remaining slots untouched. -/
def runTransitions (tDecide : T → D → Wrd → Target × D) (world : Wrd) :
    List T → List D → Target × List D
  | _, [] => (Target.Continue, [])
  | [], ds => (Target.Continue, ds)
  | t :: ts, d :: ds =>
    match tDecide t d world with
    | (Target.Continue, d') =>
      match runTransitions tDecide world ts ds with
      | (r, ds') => (r, d' :: ds')
    | (tgt, d') => (tgt, d' :: ds)

/-- `label::State::update` (src/label.rs): run the behavior once, lazily
create one default slot per transition on the first visit, then evaluate
transitions in declaration order. -/
def label.State.update (bUpdate : B → D → Updt → Wrd → D × Updt)
    (tDecide : T → D → Wrd → Target × D) (d0 : D) (s : label.State D)
    (state : CrateState B T) (commands : Updt) (world : Wrd) :
    Target × label.State D × Updt :=
  let bres := bUpdate state.behavior s.behavior commands world
  let tres := runTransitions tDecide world state.transitions
    (s.transitions.getD (List.replicate state.transitions.length d0))
  (tres.1, ⟨s.handle, bres.1, some tres.2⟩, bres.2)

/-- Data for an individual machine (source: `label::Machine`). -/
structure label.Machine (D : Type) where
  handle : SmHandle
  state : label.State D
  deriving DecidableEq, Repr

/-- `label::Machine::new`: start at `SHandle::INITIAL` with fresh data. -/
def label.Machine.new (d0 : D) (handle : SmHandle) : label.Machine D :=
  ⟨handle, label.State.new d0 SHandle.INITIAL⟩

/-- `label::Machine::update` (src/label.rs lines 72-90): resolve the current
state in the definition (else `BadStateName`), run it, and on a `Goto`
replace the state record with a fresh one at the new handle. -/
def label.Machine.update (bUpdate : B → D → Updt → Wrd → D × Updt)
    (tDecide : T → D → Wrd → Target × D) (d0 : D) (m : label.Machine D)
    (machine : StateMachine B T) (commands : Updt) (world : Wrd) :
    Except Error Target × label.Machine D × Updt :=
  match machine.state m.state.handle with
  | none => (.error .BadStateName, m, commands)
  | some stateDef =>
    let r := label.State.update bUpdate tDecide d0 m.state stateDef commands world
    match r.1 with
    | Target.Goto h => (.ok (Target.Goto h), ⟨m.handle, label.State.new d0 h⟩, r.2.2)
    | _ => (.ok r.1, ⟨m.handle, r.2.1⟩, r.2.2)

/-- The managed state of a HFSM (source: `label::NestedMachine`).  The Rust
`Vec` pushes and pops at its end; the list models it with its head as the
top of the stack. -/
structure label.NestedMachine (D : Type) where
  stack : List (label.Machine D)
  deriving DecidableEq, Repr

/-- `NestedMachine::new`: no active state. -/
def label.NestedMachine.new : label.NestedMachine D := ⟨[]⟩

/-- `NestedMachine::new_active`: machine 0 at its initial state. -/
def label.NestedMachine.new_active (d0 : D) : label.NestedMachine D :=
  ⟨[label.Machine.new d0 ⟨0⟩]⟩

/-- `NestedMachine::enter`: push a fresh frame for `machine`. -/
def label.NestedMachine.enter (d0 : D) (nm : label.NestedMachine D)
    (machine : SmHandle) : label.NestedMachine D :=
  ⟨label.Machine.new d0 machine :: nm.stack⟩

/-- `NestedMachine::stack_len`. -/
def label.NestedMachine.stack_len (nm : label.NestedMachine D) : Nat :=
  nm.stack.length

/-- `NestedMachine::current_state_name` (src/label.rs lines 125-131). -/
def label.NestedMachine.current_state_name (nm : label.NestedMachine D)
    (machines : CrateStateMachines B T) : Option String :=
  nm.stack.head?.bind (fun m => machines.state_name m.handle m.state.handle)

/-- `NestedMachine::current_machine_name` (src/label.rs lines 133-139). -/
def label.NestedMachine.current_machine_name (nm : label.NestedMachine D)
    (machines : CrateStateMachines B T) : Option String :=
  nm.stack.head?.bind (fun m => machines.machine_name m.handle)

/-- `NestedMachine::update` (src/label.rs lines 141-170).  The `&mut self`
receiver and `&mut commands` are returned alongside the `Result`; on every
error path the source returns before mutating them. -/
def label.NestedMachine.update (bUpdate : B → D → Updt → Wrd → D × Updt)
    (tDecide : T → D → Wrd → Target × D) (d0 : D) (nm : label.NestedMachine D)
    (machines : CrateStateMachines B T) (commands : Updt) (world : Wrd) :
    Except Error label.Complete × label.NestedMachine D × Updt :=
  match nm.stack with
  | [] => (.error .EmptyStack, nm, commands)
  | current :: rest =>
    match machines.machine current.handle with
    | none => (.error .BadMachineName, nm, commands)
    | some machine =>
      let r := label.Machine.update bUpdate tDecide d0 current machine commands world
      match r.1 with
      | .error e => (.error e, ⟨r.2.1 :: rest⟩, r.2.2)
      | .ok tgt =>
        match tgt with
        | Target.Enter h =>
          (.ok .Running, ⟨label.Machine.new d0 h :: r.2.1 :: rest⟩, r.2.2)
        | Target.Complete =>
          (.ok (if rest.isEmpty then .Done else .Running), ⟨rest⟩, r.2.2)
        | _ => (.ok .Running, ⟨r.2.1 :: rest⟩, r.2.2)

/-! ## Concrete instances used to exercise the definitions

A minimal consumer: behavior data and the update sink are counters
(`D = Nat`, `Updt = Nat`), the world is trivial (`Wrd = Unit`), behavior
values are `Unit` and a transition value is simply the `Target` it reports
(`T = Target`); its private data counts its invocations. -/

/-- A `Behavior::update` impl: bump the private counter and the sink. -/
def exBehavior : Unit → Nat → Nat → Unit → Nat × Nat :=
  fun _ d c _ => (d + 1, c + 1)

/-- A `Transition::decide` impl: report the stored target, bump the
private counter. -/
def exDecide : Target → Nat → Unit → Target × Nat :=
  fun t d _ => (t, d + 1)

/-- A store with one machine `m0` whose states `s0`, `s1`, `s2` complete,
enter machine 0, and go to state 0 respectively. -/
def exStore : StateMachines Unit Target :=
  { machines := [⟨[⟨[Target.Complete], ()⟩,
                   ⟨[Target.Enter ⟨0⟩], ()⟩,
                   ⟨[Target.Goto ⟨0⟩], ()⟩]⟩],
    machine_names := ["m0"],
    state_names := [["s0", "s1", "s2"]] }

/-- A frame for machine 0 sitting at state `s` with fresh data. -/
def exFrame (s : Nat) : label.Machine Nat :=
  ⟨⟨0⟩, ⟨⟨s⟩, 0, none⟩⟩

/-- A state definition with three transitions: the first continues, the
second reports a `Goto`, the third would complete but is never reached. -/
def exScanState : State Unit Target :=
  ⟨[Target.Continue, Target.Goto ⟨1⟩, Target.Complete], ()⟩

/-- A running state for `exScanState` with already-created transition
slots holding recognizable counters. -/
def exScanLabel : label.State Nat := ⟨⟨0⟩, 5, some [10, 20, 30]⟩

/-- A store whose single machine declares 257 states, so that positions 0
and 256 collide after the `as u8` truncation. -/
def exBigStore : StateMachines Unit Target :=
  { machines := [], machine_names := ["m"],
    state_names := [List.replicate 257 "s"] }

/-- Builder description where machines `M0` and `M1` both declare a state
named `B`: `B` is state 1 of `M0` but state 0 of `M1`. -/
def c1Desc : builder.StateMachines Unit builder.Target :=
  [⟨"M0", [⟨"A", (), []⟩, ⟨"B", (), [builder.Target.Goto "B"]⟩]⟩,
   ⟨"M1", [⟨"B", (), []⟩]⟩]

/-! ## Helper lemmas -/

/-- `label::State::update` never changes the recorded state handle. -/
theorem label.State.update_handle (bU : B → D → Updt → Wrd → D × Updt)
    (tD : T → D → Wrd → Target × D) (d0 : D) (s : label.State D)
    (st : CrateState B T) (c : Updt) (w : Wrd) :
    (label.State.update bU tD d0 s st c w).2.1.handle = s.handle := rfl

/-! ## Claims about the execution engine -/

/-- C6: for every store, update sink and world (and any behavior and
transition implementation), calling `update` on a `NestedMachine` whose
stack is empty returns `Err(EmptyStack)` — an error, not a no-op `Ok` —
and leaves the stack empty; since the result does not depend on `bU` or
`tD` at all, no behavior or transition is invoked. -/
theorem c6_update_empty_stack_errors (bU : B → D → Updt → Wrd → D × Updt)
    (tD : T → D → Wrd → Target × D) (d0 : D) (machines : StateMachines B T)
    (c : Updt) (w : Wrd) :
    label.NestedMachine.update bU tD d0 ⟨[]⟩ machines c w
      = (.error Error.EmptyStack, ⟨[]⟩, c) := rfl

/-- C7: for every non-empty stack, a top frame whose machine handle does
not index the store yields `Err(BadMachineName)`, and one whose machine
resolves but whose state handle does not index that machine's state list
yields `Err(BadStateName)`; both are typed results, the `NestedMachine`
and the update sink are returned unchanged, and the outcome holds for
every behavior/transition implementation (none is invoked). -/
theorem c7_bad_handle_errors (bU : B → D → Updt → Wrd → D × Updt)
    (tD : T → D → Wrd → Target × D) (d0 : D) (machines : StateMachines B T)
    (nm : label.NestedMachine D) (top : label.Machine D)
    (rest : List (label.Machine D)) (c : Updt) (w : Wrd)
    (hstack : nm.stack = top :: rest) :
    (machines.machine top.handle = none →
      label.NestedMachine.update bU tD d0 nm machines c w
        = (.error Error.BadMachineName, nm, c)) ∧
    (∀ mdef, machines.machine top.handle = some mdef →
      StateMachine.state mdef top.state.handle = none →
      label.NestedMachine.update bU tD d0 nm machines c w
        = (.error Error.BadStateName, nm, c)) := by
  obtain ⟨stack⟩ := nm
  simp only [] at hstack
  subst hstack
  refine ⟨fun hm => ?_, fun mdef hm hst => ?_⟩
  · simp [label.NestedMachine.update, hm]
  · simp [label.NestedMachine.update, hm, label.Machine.update, hst]

/-- Witness for C7 at a concrete store: an out-of-range machine handle and
an out-of-range state handle each produce the typed error and leave the
instance untouched. -/
theorem c7_bad_handle_errors_witness :
    label.NestedMachine.update exBehavior exDecide 0
        ⟨[⟨⟨5⟩, ⟨⟨0⟩, 0, none⟩⟩]⟩ exStore 0 ()
      = (.error Error.BadMachineName, ⟨[⟨⟨5⟩, ⟨⟨0⟩, 0, none⟩⟩]⟩, 0) ∧
    label.NestedMachine.update exBehavior exDecide 0
        ⟨[⟨⟨0⟩, ⟨⟨9⟩, 0, none⟩⟩]⟩ exStore 0 ()
      = (.error Error.BadStateName, ⟨[⟨⟨0⟩, ⟨⟨9⟩, 0, none⟩⟩]⟩, 0) :=
  ⟨(c7_bad_handle_errors exBehavior exDecide 0 exStore _ _ [] 0 () rfl).1 rfl,
   (c7_bad_handle_errors exBehavior exDecide 0 exStore _ _ [] 0 () rfl).2
     ⟨[⟨[Target.Complete], ()⟩, ⟨[Target.Enter ⟨0⟩], ()⟩,
       ⟨[Target.Goto ⟨0⟩], ()⟩]⟩ rfl rfl⟩

/-- C3: whenever one update call's step outcome is `Complete`, exactly the
top frame is popped (depth decreases by 1), the parent frames are returned
untouched (not evaluated in the same call), and the call returns
`Ok(Done)` iff the stack became empty, `Ok(Running)` otherwise. -/
theorem c3_complete_pops_one (bU : B → D → Updt → Wrd → D × Updt)
    (tD : T → D → Wrd → Target × D) (d0 : D) (machines : StateMachines B T)
    (nm : label.NestedMachine D) (top : label.Machine D)
    (rest : List (label.Machine D)) (mdef : StateMachine B T)
    (top' : label.Machine D) (c c' : Updt) (w : Wrd)
    (hstack : nm.stack = top :: rest)
    (hm : machines.machine top.handle = some mdef)
    (hupd : label.Machine.update bU tD d0 top mdef c w
      = (.ok Target.Complete, top', c')) :
    label.NestedMachine.update bU tD d0 nm machines c w
      = (.ok (if rest.isEmpty then label.Complete.Done
              else label.Complete.Running), ⟨rest⟩, c') ∧
    rest.length + 1 = nm.stack.length ∧
    ((label.NestedMachine.update bU tD d0 nm machines c w).1
        = .ok label.Complete.Done ↔ rest = []) ∧
    ((label.NestedMachine.update bU tD d0 nm machines c w).1
        = .ok label.Complete.Running ↔ rest ≠ []) := by
  obtain ⟨stack⟩ := nm
  simp only [] at hstack
  subst hstack
  have hu : label.NestedMachine.update bU tD d0 ⟨top :: rest⟩ machines c w
      = (.ok (if rest.isEmpty then label.Complete.Done
              else label.Complete.Running), ⟨rest⟩, c') := by
    simp [label.NestedMachine.update, hm, hupd]
  refine ⟨hu, by simp, ?_, ?_⟩ <;> rw [hu] <;> cases rest <;> simp

/-- Witness for C3: a frame whose state reports `Complete` on a singleton
stack pops to empty and the call returns `Done`. -/
theorem c3_complete_pops_one_witness :
    label.NestedMachine.update exBehavior exDecide 0 ⟨[exFrame 0]⟩ exStore 0 ()
      = (.ok (if ([] : List (label.Machine Nat)).isEmpty
              then label.Complete.Done else label.Complete.Running),
         ⟨[]⟩, 1) :=
  (c3_complete_pops_one exBehavior exDecide 0 exStore ⟨[exFrame 0]⟩ (exFrame 0)
    []
    ⟨[⟨[Target.Complete], ()⟩, ⟨[Target.Enter ⟨0⟩], ()⟩,
      ⟨[Target.Goto ⟨0⟩], ()⟩]⟩
    ⟨⟨0⟩, ⟨⟨0⟩, 1, some [1]⟩⟩ 0 1 () rfl rfl rfl).1

/-- C5: whenever one update call's step outcome is `GoTo(h)`, the top
frame's state is replaced by a fresh record for the same machine at handle
`h` — default-initialized behavior data and no transition-data slots, the
left state's private data discarded (the replacement is unconditional in
`h`, so it happens even when `h` equals the current state handle) — the
stack depth is unchanged and the call returns `Ok(Running)`. -/
theorem c5_goto_replaces_state (bU : B → D → Updt → Wrd → D × Updt)
    (tD : T → D → Wrd → Target × D) (d0 : D) (machines : StateMachines B T)
    (nm : label.NestedMachine D) (top : label.Machine D)
    (rest : List (label.Machine D)) (mdef : StateMachine B T)
    (stDef : State B T) (st' : label.State D) (h : SHandle)
    (c c' : Updt) (w : Wrd)
    (hstack : nm.stack = top :: rest)
    (hm : machines.machine top.handle = some mdef)
    (hst : StateMachine.state mdef top.state.handle = some stDef)
    (hupd : label.State.update bU tD d0 top.state stDef c w
      = (Target.Goto h, st', c')) :
    label.NestedMachine.update bU tD d0 nm machines c w
      = (.ok label.Complete.Running,
         ⟨⟨top.handle, label.State.new d0 h⟩ :: rest⟩, c') ∧
    (⟨top.handle, label.State.new d0 h⟩ :: rest).length = nm.stack.length ∧
    label.State.new d0 h = (⟨h, d0, none⟩ : label.State D) := by
  obtain ⟨stack⟩ := nm
  simp only [] at hstack
  subst hstack
  refine ⟨?_, by simp, rfl⟩
  simp [label.NestedMachine.update, hm, label.Machine.update, hst, hupd]

/-- Witness for C5: a state whose transition reports `Goto 0` is replaced
by a fresh state record at handle 0; depth stays 1 and the call returns
`Running`. -/
theorem c5_goto_replaces_state_witness :
    label.NestedMachine.update exBehavior exDecide 0 ⟨[exFrame 2]⟩ exStore 0 ()
      = (.ok label.Complete.Running,
         ⟨[⟨⟨0⟩, label.State.new 0 ⟨0⟩⟩]⟩, 1) :=
  (c5_goto_replaces_state exBehavior exDecide 0 exStore ⟨[exFrame 2]⟩
    (exFrame 2) []
    ⟨[⟨[Target.Complete], ()⟩, ⟨[Target.Enter ⟨0⟩], ()⟩,
      ⟨[Target.Goto ⟨0⟩], ()⟩]⟩
    ⟨[Target.Goto ⟨0⟩], ()⟩ ⟨⟨2⟩, 1, some [1]⟩ ⟨0⟩ 0 1 () rfl rfl rfl rfl).1

/-- C4: `enter(h)` pushes exactly one fresh frame: the new top records
machine `h` at the initial state (`SHandle::INITIAL = 0`) with default
private data (`d0`, no transition slots), depth grows by 1 and every
previously present frame — in particular the previously active top — is
left exactly as it was at the moment of the push.  When `enter` runs
because a step outcome was `Enter(h)`, the parent frame below the new top
keeps its machine handle and state handle, and its behavior is not run
again within that call (the returned stack is final for the call). -/
theorem c4_enter_pushes_fresh_frame (bU : B → D → Updt → Wrd → D × Updt)
    (tD : T → D → Wrd → Target × D) (d0 : D) (nm : label.NestedMachine D)
    (h : SmHandle) (hne : nm.stack ≠ []) :
    (label.NestedMachine.enter d0 nm h).stack
      = label.Machine.new d0 h :: nm.stack ∧
    (label.NestedMachine.enter d0 nm h).stack_len = nm.stack_len + 1 ∧
    (label.NestedMachine.enter d0 nm h).stack.head?
      = some ⟨h, ⟨SHandle.INITIAL, d0, none⟩⟩ ∧
    (label.NestedMachine.enter d0 nm h).stack.tail = nm.stack ∧
    (∀ (machines : StateMachines B T) (top : label.Machine D)
        (rest : List (label.Machine D)) (mdef : StateMachine B T)
        (stDef : State B T) (st' : label.State D) (c c' : Updt) (w : Wrd),
      nm.stack = top :: rest →
      machines.machine top.handle = some mdef →
      StateMachine.state mdef top.state.handle = some stDef →
      label.State.update bU tD d0 top.state stDef c w
        = (Target.Enter h, st', c') →
      label.NestedMachine.update bU tD d0 nm machines c w
        = (.ok label.Complete.Running,
           ⟨label.Machine.new d0 h :: ⟨top.handle, st'⟩ :: rest⟩, c') ∧
      st'.handle = top.state.handle) := by
  refine ⟨rfl, rfl, rfl, rfl,
    fun machines top rest mdef stDef st' c c' w hstack hm hst hupd => ⟨?_, ?_⟩⟩
  · obtain ⟨stack⟩ := nm
    simp only [] at hstack
    subst hstack
    simp [label.NestedMachine.update, hm, label.Machine.update, hst, hupd]
  · have hh := label.State.update_handle bU tD d0 top.state stDef c w
    rw [hupd] at hh
    exact hh

/-- Witness for C4: entering machine 0 as the result of an `Enter` step
outcome pushes one fresh frame above the suspended parent. -/
theorem c4_enter_pushes_fresh_frame_witness :
    (label.NestedMachine.enter 0 (⟨[exFrame 1]⟩ : label.NestedMachine Nat)
      ⟨0⟩).stack = label.Machine.new 0 ⟨0⟩ :: [exFrame 1] ∧
    label.NestedMachine.update exBehavior exDecide 0 ⟨[exFrame 1]⟩ exStore 0 ()
      = (.ok label.Complete.Running,
         ⟨label.Machine.new 0 ⟨0⟩ :: ⟨⟨0⟩, ⟨⟨1⟩, 1, some [1]⟩⟩ :: []⟩, 1) :=
  ⟨(c4_enter_pushes_fresh_frame exBehavior exDecide 0 ⟨[exFrame 1]⟩ ⟨0⟩
      (by simp)).1,
   ((c4_enter_pushes_fresh_frame exBehavior exDecide 0 ⟨[exFrame 1]⟩ ⟨0⟩
      (by simp)).2.2.2.2 exStore (exFrame 1) []
      ⟨[⟨[Target.Complete], ()⟩, ⟨[Target.Enter ⟨0⟩], ()⟩,
        ⟨[Target.Goto ⟨0⟩], ()⟩]⟩
      ⟨[Target.Enter ⟨0⟩], ()⟩ ⟨⟨1⟩, 1, some [1]⟩ 0 1 () rfl rfl rfl rfl).1⟩

/-- C10: `current_state_name` and `current_machine_name` return `none`
(not an error, not a fault) on an empty stack, and also whenever the top
frame's machine or state handle does not resolve in the supplied store;
both take the instance read-only, so the stack is never mutated. -/
theorem c10_name_queries_none :
    (∀ (ms : StateMachines B T),
      label.NestedMachine.current_state_name (D := D) ⟨[]⟩ ms = none ∧
      label.NestedMachine.current_machine_name (D := D) ⟨[]⟩ ms = none) ∧
    (∀ (nm : label.NestedMachine D) (ms : StateMachines B T)
        (top : label.Machine D) (rest : List (label.Machine D)),
      nm.stack = top :: rest →
      ((ms.state_names.get? top.handle.val = none →
          label.NestedMachine.current_state_name nm ms = none) ∧
       (∀ ns, ms.state_names.get? top.handle.val = some ns →
          ns.get? top.state.handle.val = none →
          label.NestedMachine.current_state_name nm ms = none) ∧
       (ms.machine_names.get? top.handle.val = none →
          label.NestedMachine.current_machine_name nm ms = none))) := by
  refine ⟨fun ms => ⟨rfl, rfl⟩, fun nm ms top rest hstack => ?_⟩
  obtain ⟨stack⟩ := nm
  simp only [] at hstack
  subst hstack
  refine ⟨fun hm => ?_, fun ns hm hs => ?_, fun hm => ?_⟩
  · show (ms.state_names.get? top.handle.val).bind
      (fun names => names.get? top.state.handle.val) = none
    rw [hm]
    rfl
  · show (ms.state_names.get? top.handle.val).bind
      (fun names => names.get? top.state.handle.val) = none
    rw [hm]
    exact hs
  · exact hm

/-- Witness for C10 on concrete inputs: empty stack, an unresolvable
machine handle, and an unresolvable state handle all answer `none`. -/
theorem c10_name_queries_none_witness :
    label.NestedMachine.current_state_name (D := Nat) ⟨[]⟩ exStore = none ∧
    label.NestedMachine.current_state_name ⟨[⟨⟨5⟩, ⟨⟨0⟩, (0 : Nat), none⟩⟩]⟩
      exStore = none ∧
    label.NestedMachine.current_state_name ⟨[⟨⟨0⟩, ⟨⟨9⟩, (0 : Nat), none⟩⟩]⟩
      exStore = none ∧
    label.NestedMachine.current_machine_name ⟨[⟨⟨5⟩, ⟨⟨0⟩, (0 : Nat), none⟩⟩]⟩
      exStore = none :=
  ⟨(c10_name_queries_none.1 exStore).1,
   (c10_name_queries_none.2 _ exStore _ [] rfl).1 rfl,
   (c10_name_queries_none.2 _ exStore _ [] rfl).2.1 ["s0", "s1", "s2"] rfl rfl,
   (c10_name_queries_none.2 _ exStore _ [] rfl).2.2 rfl⟩

/-- Transition scan, empty data list: the `zip` yields nothing. -/
theorem runTransitions_nil_right (tD : T → D → Wrd → Target × D) (w : Wrd)
    (ts : List T) : runTransitions tD w ts [] = (Target.Continue, []) := by
  cases ts <;> rfl

/-- Transition scan, no transitions: the data is left untouched. -/
theorem runTransitions_nil_left (tD : T → D → Wrd → Target × D) (w : Wrd)
    (ds : List D) : runTransitions tD w [] ds = (Target.Continue, ds) := by
  cases ds <;> rfl

/-- One step of the transition scan, as an `if` on the first decision. -/
theorem runTransitions_cons (tD : T → D → Wrd → Target × D) (w : Wrd)
    (t : T) (ts : List T) (d : D) (ds : List D) :
    runTransitions tD w (t :: ts) (d :: ds)
      = if (tD t d w).1 = Target.Continue
        then ((runTransitions tD w ts ds).1,
              (tD t d w).2 :: (runTransitions tD w ts ds).2)
        else ((tD t d w).1, (tD t d w).2 :: ds) := by
  rcases htd : tD t d w with ⟨tgt, d'⟩
  rcases hrec : runTransitions tD w ts ds with ⟨r, ds''⟩
  cases tgt <;> simp [runTransitions, htd, hrec]

/-- Core property of the transition scan: if the first `k` zipped
transitions decide `Continue`, then a non-`Continue` decision at position
`k` is the scan's result and every data slot past `k` is untouched; and if
the zip runs out at or before `k`, the result is `Continue`. -/
theorem runTransitions_stop (tD : T → D → Wrd → Target × D) (w : Wrd) :
    ∀ (k : Nat) (ts : List T) (ds : List D),
    (∀ i, i < k → ∀ t d, ts.get? i = some t → ds.get? i = some d →
      (tD t d w).1 = Target.Continue) →
    ((∀ t d, ts.get? k = some t → ds.get? k = some d →
        (tD t d w).1 ≠ Target.Continue →
        (runTransitions tD w ts ds).1 = (tD t d w).1 ∧
        ∀ j, k < j → (runTransitions tD w ts ds).2.get? j = ds.get? j) ∧
     ((ts.get? k = none ∨ ds.get? k = none) →
        (runTransitions tD w ts ds).1 = Target.Continue)) := by
  intro k
  induction k with
  | zero =>
    intro ts ds _
    cases ts with
    | nil =>
      exact ⟨fun t d ht => by simp at ht,
        fun _ => by simp [runTransitions_nil_left]⟩
    | cons t0 ts' =>
      cases ds with
      | nil =>
        exact ⟨fun t d ht hd => by simp at hd,
          fun _ => by simp [runTransitions_nil_right]⟩
      | cons d0' ds' =>
        constructor
        · intro t d ht hd hne
          simp only [List.get?_cons_zero, Option.some.injEq] at ht hd
          subst ht
          subst hd
          rw [runTransitions_cons, if_neg hne]
          refine ⟨rfl, fun j hj => ?_⟩
          cases j with
          | zero => omega
          | succ j' => simp
        · intro hn
          rcases hn with hn | hn <;> simp at hn
  | succ k ih =>
    intro ts ds hbefore
    cases ts with
    | nil =>
      exact ⟨fun t d ht => by simp at ht,
        fun _ => by simp [runTransitions_nil_left]⟩
    | cons t0 ts' =>
      cases ds with
      | nil =>
        exact ⟨fun t d ht hd => by simp at hd,
          fun _ => by simp [runTransitions_nil_right]⟩
      | cons d0' ds' =>
        have h0 : (tD t0 d0' w).1 = Target.Continue :=
          hbefore 0 (Nat.succ_pos k) t0 d0' rfl rfl
        have hbefore' : ∀ i, i < k → ∀ t d, ts'.get? i = some t →
            ds'.get? i = some d → (tD t d w).1 = Target.Continue :=
          fun i hi t d ht hd =>
            hbefore (i + 1) (Nat.succ_lt_succ hi) t d (by simpa using ht)
              (by simpa using hd)
        obtain ⟨ihA, ihB⟩ := ih ts' ds' hbefore'
        rw [runTransitions_cons, if_pos h0]
        constructor
        · intro t d ht hd hne
          simp only [List.get?_cons_succ] at ht hd
          obtain ⟨h1, h2⟩ := ihA t d ht hd hne
          refine ⟨h1, fun j hj => ?_⟩
          cases j with
          | zero => omega
          | succ j' => simpa using h2 j' (Nat.lt_of_succ_lt_succ hj)
        · intro hnone
          simp only [List.get?_cons_succ] at hnone
          exact ihB hnone

/-- C2: one `label::State::update` step evaluates the state's transitions
strictly in declaration order over their private-data slots (lazily
default-created on the first visit); if the first `k` decide `Continue`
and the one at position `k` does not, its target is the step's outcome and
every data slot past `k` is left untouched (those transitions are not
evaluated that tick); if every zipped transition decides `Continue`, the
outcome is `Continue`. -/
theorem c2_first_non_continue_wins (bU : B → D → Updt → Wrd → D × Updt)
    (tD : T → D → Wrd → Target × D) (d0 : D) (stDef : State B T)
    (s : label.State D) (c : Updt) (w : Wrd) (k : Nat)
    (hbefore : ∀ i, i < k → ∀ t d, stDef.transitions.get? i = some t →
      (s.transitions.getD
        (List.replicate stDef.transitions.length d0)).get? i = some d →
      (tD t d w).1 = Target.Continue) :
    (∀ t d, stDef.transitions.get? k = some t →
      (s.transitions.getD
        (List.replicate stDef.transitions.length d0)).get? k = some d →
      (tD t d w).1 ≠ Target.Continue →
      (label.State.update bU tD d0 s stDef c w).1 = (tD t d w).1 ∧
      ∃ ds', (label.State.update bU tD d0 s stDef c w).2.1.transitions
          = some ds' ∧
        ∀ j, k < j → ds'.get? j = (s.transitions.getD
          (List.replicate stDef.transitions.length d0)).get? j) ∧
    ((stDef.transitions.get? k = none ∨
      (s.transitions.getD
        (List.replicate stDef.transitions.length d0)).get? k = none) →
      (label.State.update bU tD d0 s stDef c w).1 = Target.Continue) := by
  obtain ⟨hA, hB⟩ := runTransitions_stop tD w k stDef.transitions
    (s.transitions.getD (List.replicate stDef.transitions.length d0)) hbefore
  constructor
  · intro t d ht hd hne
    obtain ⟨h1, h2⟩ := hA t d ht hd hne
    exact ⟨h1, ⟨_, rfl, h2⟩⟩
  · exact hB

/-- Witness for C2 at a concrete state: transitions
`[Continue, Goto 1, Complete]` with slots `[10, 20, 30]`; the scan stops
at position 1 with `Goto 1` and slot 2 keeps its value `30`. -/
theorem c2_first_non_continue_wins_witness :
    (label.State.update exBehavior exDecide 0 exScanLabel exScanState 0 ()).1
      = (exDecide (Target.Goto ⟨1⟩) 20 ()).1 ∧
    ∃ ds', (label.State.update exBehavior exDecide 0 exScanLabel exScanState 0
        ()).2.1.transitions = some ds' ∧
      ∀ j, 1 < j → ds'.get? j = (exScanLabel.transitions.getD
        (List.replicate exScanState.transitions.length 0)).get? j :=
  (c2_first_non_continue_wins exBehavior exDecide 0 exScanState exScanLabel 0
    () 1
    (by
      intro i hi t d ht hd
      have hi0 : i = 0 := Nat.lt_one_iff.mp hi
      subst hi0
      simp only [exScanState, List.get?_cons_zero, Option.some.injEq] at ht
      subst ht
      rfl)).1
    (Target.Goto ⟨1⟩) 20 rfl rfl (by decide)

/-! ## Builder lemmas -/

/-- `pass1States` only touches the state-name map. -/
theorem builder.pass1States_machine_names :
    ∀ (ss : List (builder.State B T)) (si : Nat) (m : builder.NameMapping),
    (builder.pass1States si ss m).machine_names = m.machine_names := by
  intro ss
  induction ss with
  | nil => intro si m; rfl
  | cons s rest ih => intro si m; simp [builder.pass1States, ih]

/-- The state-name map built by `pass1States` is the reversed run of
insertions (most recent first) on top of the previous map. -/
theorem builder.pass1States_state_names :
    ∀ (ss : List (builder.State B T)) (si : Nat) (m : builder.NameMapping),
    (builder.pass1States si ss m).state_names
      = ((List.enumFrom si ss).map
          (fun p => (p.2.name, p.1 % 256))).reverse ++ m.state_names := by
  intro ss
  induction ss with
  | nil => intro si m; rfl
  | cons s rest ih =>
    intro si m
    simp [builder.pass1States, ih, hmInsert, List.enumFrom]

/-- The machine-name map built by pass 1. -/
theorem builder.pass1_machine_names :
    ∀ (d : builder.StateMachines B T) (mi : Nat) (m : builder.NameMapping),
    (builder.pass1 mi d m).machine_names
      = ((List.enumFrom mi d).map
          (fun p => (p.2.name, p.1 % 65536))).reverse ++ m.machine_names := by
  intro d
  induction d with
  | nil => intro mi m; rfl
  | cons sm rest ih =>
    intro mi m
    simp [builder.pass1, ih, builder.pass1States_machine_names, hmInsert,
      List.enumFrom]

/-- The state-name map built by pass 1 over all machines. -/
theorem builder.pass1_state_names :
    ∀ (d : builder.StateMachines B T) (mi : Nat) (m : builder.NameMapping),
    (builder.pass1 mi d m).state_names
      = (builder.stateDecls d).reverse ++ m.state_names := by
  intro d
  induction d with
  | nil => intro mi m; rfl
  | cons sm rest ih =>
    intro mi m
    simp [builder.pass1, ih, builder.pass1States_state_names,
      builder.stateDecls, hmInsert, List.enum]

/-- The complete pass-1 state-name map, most recent insertion first. -/
theorem builder.buildMapping_state_names (d : builder.StateMachines B T) :
    (builder.buildMapping d).state_names = (builder.stateDecls d).reverse := by
  rw [builder.buildMapping, builder.pass1_state_names]
  simp [builder.NameMapping.new]

/-- The complete pass-1 machine-name map, most recent insertion first. -/
theorem builder.buildMapping_machine_names (d : builder.StateMachines B T) :
    (builder.buildMapping d).machine_names
      = (builder.machineDecls d).reverse := by
  rw [builder.buildMapping, builder.pass1_machine_names]
  simp [builder.NameMapping.new, builder.machineDecls, List.enum]

/-- Association-list lookup misses every key that is not present. -/
theorem lookup_eq_none_of_not_mem_keys :
    ∀ (l : List (String × Nat)) (name : String),
    name ∉ l.map Prod.fst → l.lookup name = none := by
  intro l
  induction l with
  | nil => intro name _; rfl
  | cons p rest ih =>
    intro name hmem
    simp only [List.map_cons, List.mem_cons, not_or] at hmem
    obtain ⟨p1, p2⟩ := p
    have hb : (name == p1) = false := by
      rw [beq_eq_false_iff_ne]
      exact hmem.1
    simp [List.lookup, hb, ih name hmem.2]

/-- The keys recorded for one machine's states are its state names. -/
theorem enumNameDecls_keys (ss : List (builder.State B T)) :
    (ss.enum.map (fun p => (p.2.name, p.1 % 256))).map Prod.fst
      = ss.map (fun s => s.name) := by
  rw [List.map_map]
  rw [show (Prod.fst ∘ fun p : Nat × builder.State B T => (p.2.name, p.1 % 256))
      = ((fun s : builder.State B T => s.name) ∘ Prod.snd) from rfl]
  rw [← List.map_map, List.enum_map_snd]

/-- The keys of `stateDecls` are exactly the declared state names. -/
theorem builder.stateDecls_keys (d : builder.StateMachines B T) :
    (builder.stateDecls d).map Prod.fst
      = (d.map (fun sm => sm.states.map (fun s => s.name))).flatten := by
  induction d with
  | nil => rfl
  | cons sm rest ih =>
    simp only [builder.stateDecls, List.map_cons, List.flatten_cons,
      List.map_append] at ih ⊢
    rw [enumNameDecls_keys, ih]

/-- The keys of `machineDecls` are exactly the declared machine names. -/
theorem builder.machineDecls_keys (d : builder.StateMachines B T) :
    (builder.machineDecls d).map Prod.fst = d.map (fun sm => sm.name) := by
  simp only [builder.machineDecls]
  rw [List.map_map]
  rw [show (Prod.fst ∘ fun p : Nat × builder.StateMachine B T =>
      (p.2.name, p.1 % 65536))
      = ((fun sm : builder.StateMachine B T => sm.name) ∘ Prod.snd) from rfl]
  rw [← List.map_map, List.enum_map_snd]

/-- `find?` over the machine enumeration misses absent names. -/
theorem find_machinesEnum_eq_none :
    ∀ (l : List String) (n : Nat) (name : String), name ∉ l →
    ((List.enumFrom n l).map
      (fun p => ((⟨p.1 % 65536⟩ : SmHandle), p.2))).find?
        (fun hn => hn.2 == name) = none := by
  intro l
  induction l with
  | nil => intro n name _; rfl
  | cons x rest ih =>
    intro n name hmem
    simp only [List.mem_cons, not_or] at hmem
    have hx : (x == name) = false := by
      rw [beq_eq_false_iff_ne]
      exact Ne.symm hmem.1
    simp [List.enumFrom, List.find?_cons, hx, ih (n + 1) name hmem.2]

/-- `get?` through `enumFrom`-then-`map`. -/
theorem enumFrom_map_get? {α : Type} (f : Nat × String → α) :
    ∀ (l : List String) (n i : Nat),
    ((List.enumFrom n l).map f).get? i
      = (l.get? i).map (fun a => f (n + i, a)) := by
  intro l n i
  simp [List.get?_eq_getElem?, List.getElem?_map, List.getElem?_enumFrom,
    Option.map_map, Function.comp_def]

/-! ## Claims about the builder and the store -/

/-- C1 (counterexample): in `c1Desc`, state `B` is declared at index 1 of
machine `M0`, yet `goto "B"` resolves to `StateHandle 0` — the index it
has in the later machine `M1` — not to its declaration index within the
owning machine `M0`: pass 1 records all state names in one machine-blind
map, so the claim fails when states of different machines share a name. -/
theorem c1_per_machine_resolution_cex :
    ((c1Desc.get? 0).map (fun sm => sm.states.map (fun s => s.name)))
      = some ["A", "B"] ∧
    (builder.buildMapping c1Desc).goto "B" = some (Target.Goto ⟨0⟩) ∧
    (builder.buildMapping c1Desc).goto "B" ≠ some (Target.Goto ⟨1⟩) := by
  refine ⟨rfl, by decide, by decide⟩

/-- C1 (amended): the two-pass build resolves every transition through the
single `NameMapping` recorded by pass 1, which is shared by all machines
and in which a later insertion overwrites an earlier one.  Hence
`goto X` yields the `StateHandle` equal to the truncated within-machine
declaration index of the *last* state named `X` in overall declaration
order — not necessarily the index within the owning machine when states
of different machines share a name — and `enter Y` yields the
`MachineHandle` of the last machine named `Y`; `target` forwards to
these. -/
theorem c1_global_last_declaration_wins (d : builder.StateMachines B T)
    (name : String) :
    (builder.buildMapping d).goto name
      = ((builder.stateDecls d).reverse.lookup name).map
          (fun v => (.Goto ⟨v⟩ : CrateTarget)) ∧
    (builder.buildMapping d).enter name
      = ((builder.machineDecls d).reverse.lookup name).map
          (fun v => (.Enter ⟨v⟩ : CrateTarget)) ∧
    (builder.buildMapping d).target (builder.Target.Goto name)
      = (builder.buildMapping d).goto name ∧
    (builder.buildMapping d).target (builder.Target.Enter name)
      = (builder.buildMapping d).enter name := by
  refine ⟨?_, ?_, rfl, rfl⟩
  · show ((builder.buildMapping d).state_names.lookup name).map _ = _
    rw [builder.buildMapping_state_names]
  · show ((builder.buildMapping d).machine_names.lookup name).map _ = _
    rw [builder.buildMapping_machine_names]

/-- C8: looking up a name that the description does not declare yields
`none` from `NameMapping::goto`, `NameMapping::enter` and
`NameMapping::target`, and looking up a machine name absent from a store
yields `none` from `StateMachines::machine_handle` — absent, never a
fabricated handle, never a fault. -/
theorem c8_unknown_name_lookup_none (d : builder.StateMachines B T)
    (name : String) :
    (name ∉ (d.map (fun sm => sm.states.map (fun s => s.name))).flatten →
      (builder.buildMapping d).goto name = none ∧
      (builder.buildMapping d).target (builder.Target.Goto name) = none) ∧
    (name ∉ d.map (fun sm => sm.name) →
      (builder.buildMapping d).enter name = none ∧
      (builder.buildMapping d).target (builder.Target.Enter name) = none) ∧
    (∀ (B2 T2 : Type) (ms : StateMachines B2 T2),
      name ∉ ms.machine_names → ms.machine_handle name = none) := by
  refine ⟨fun hmem => ?_, fun hmem => ?_, fun B2 T2 ms hmem => ?_⟩
  · have hlk : (builder.buildMapping d).state_names.lookup name = none := by
      rw [builder.buildMapping_state_names]
      apply lookup_eq_none_of_not_mem_keys
      rw [List.map_reverse, builder.stateDecls_keys]
      simpa using hmem
    constructor
    · show ((builder.buildMapping d).state_names.lookup name).map _ = none
      rw [hlk]
      rfl
    · show ((builder.buildMapping d).state_names.lookup name).map _ = none
      rw [hlk]
      rfl
  · have hlk : (builder.buildMapping d).machine_names.lookup name = none := by
      rw [builder.buildMapping_machine_names]
      apply lookup_eq_none_of_not_mem_keys
      rw [List.map_reverse, builder.machineDecls_keys]
      simpa using hmem
    constructor
    · show ((builder.buildMapping d).machine_names.lookup name).map _ = none
      rw [hlk]
      rfl
    · show ((builder.buildMapping d).machine_names.lookup name).map _ = none
      rw [hlk]
      rfl
  · show (ms.machinesEnum.find? (fun hn => hn.2 == name)).map
      (fun hn => hn.1) = none
    have h2 : ms.machinesEnum = (List.enumFrom 0 ms.machine_names).map
        (fun p => ((⟨p.1 % 65536⟩ : SmHandle), p.2)) := rfl
    rw [h2, find_machinesEnum_eq_none ms.machine_names 0 name hmem]
    rfl

/-- Witness for C8: the name `zz` is declared nowhere, and every lookup
answers `none`. -/
theorem c8_unknown_name_lookup_none_witness :
    (builder.buildMapping c1Desc).goto "zz" = none ∧
    (builder.buildMapping c1Desc).target (builder.Target.Goto "zz") = none ∧
    (builder.buildMapping c1Desc).enter "zz" = none ∧
    (builder.buildMapping c1Desc).target (builder.Target.Enter "zz") = none ∧
    exStore.machine_handle "zz" = none :=
  ⟨((c8_unknown_name_lookup_none c1Desc "zz").1 (by decide)).1,
   ((c8_unknown_name_lookup_none c1Desc "zz").1 (by decide)).2,
   ((c8_unknown_name_lookup_none c1Desc "zz").2.1 (by decide)).1,
   ((c8_unknown_name_lookup_none c1Desc "zz").2.1 (by decide)).2,
   (c8_unknown_name_lookup_none c1Desc "zz").2.2 Unit Target exStore
     (by decide)⟩

/-- C9: `StateHandle` wraps a `u8` and `MachineHandle` a `u16`; the builder
and the store's enumeration methods convert positional indices with
truncating casts (`i % 256`, `i % 65536`).  Distinct positions that agree
modulo the width therefore receive equal handles, and `build` accepts any
description without reporting an error (its name tables are produced
unconditionally). -/
theorem c9_handle_truncation (ms : StateMachines B T) (mh : SmHandle)
    (ns : List String) (hns : ms.state_names.get? mh.val = some ns)
    (i j : Nat) (hi : i < ns.length) (hj : j < ns.length)
    (hmod : i % 256 = j % 256) :
    (∃ l, ms.statesEnum mh = some l ∧
      (l.get? i).map Prod.fst = some ⟨i % 256⟩ ∧
      (l.get? j).map Prod.fst = some ⟨j % 256⟩ ∧
      (l.get? i).map Prod.fst = (l.get? j).map Prod.fst) ∧
    (∀ i2 j2, i2 < ms.machine_names.length → j2 < ms.machine_names.length →
      i2 % 65536 = j2 % 65536 →
      (ms.machinesEnum.get? i2).map Prod.fst = some ⟨i2 % 65536⟩ ∧
      (ms.machinesEnum.get? i2).map Prod.fst
        = (ms.machinesEnum.get? j2).map Prod.fst) ∧
    (∀ (d : builder.StateMachines B T),
      (builder.buildMapping d).state_names = (builder.stateDecls d).reverse ∧
      (builder.buildMapping d).machine_names
        = (builder.machineDecls d).reverse) ∧
    (∀ (intoWith : T → builder.NameMapping → Trs)
        (d : builder.StateMachines B T),
      (builder.StateMachines.build intoWith d).machine_names
        = d.map (fun sm => sm.name) ∧
      (builder.StateMachines.build intoWith d).state_names
        = d.map (fun sm => sm.states.map (fun s => s.name))) := by
  have hgets : ∀ (l : List String) (n : Nat), n < l.length →
      ((l.enum.map (fun p => ((⟨p.1 % 256⟩ : SHandle), p.2))).get? n).map
        Prod.fst = some ⟨n % 256⟩ := by
    intro l n hn
    have he : (l.enum.map (fun p => ((⟨p.1 % 256⟩ : SHandle), p.2))).get? n
        = (l.get? n).map (fun a => ((⟨(0 + n) % 256⟩ : SHandle), a)) :=
      enumFrom_map_get? _ l 0 n
    cases hl : l.get? n with
    | none =>
      rw [List.get?_eq_none] at hl
      omega
    | some a =>
      rw [he, hl]
      simp
  have hgetm : ∀ (l : List String) (n : Nat), n < l.length →
      ((l.enum.map (fun p => ((⟨p.1 % 65536⟩ : SmHandle), p.2))).get? n).map
        Prod.fst = some ⟨n % 65536⟩ := by
    intro l n hn
    have he : (l.enum.map (fun p => ((⟨p.1 % 65536⟩ : SmHandle), p.2))).get? n
        = (l.get? n).map (fun a => ((⟨(0 + n) % 65536⟩ : SmHandle), a)) :=
      enumFrom_map_get? _ l 0 n
    cases hl : l.get? n with
    | none =>
      rw [List.get?_eq_none] at hl
      omega
    | some a =>
      rw [he, hl]
      simp
  refine ⟨?_, fun i2 j2 hi2 hj2 hmod2 => ?_, fun d => ?_, fun intoWith d => ?_⟩
  · refine ⟨ns.enum.map (fun p => (⟨p.1 % 256⟩, p.2)), ?_, ?_, ?_, ?_⟩
    · show (ms.state_names.get? mh.val).map
        (fun names => names.enum.map
          (fun p => ((⟨p.1 % 256⟩ : SHandle), p.2))) = _
      rw [hns]
      rfl
    · exact hgets ns i hi
    · exact hgets ns j hj
    · have h3 : some (⟨i % 256⟩ : SHandle) = some ⟨j % 256⟩ := by rw [hmod]
      exact (hgets ns i hi).trans (h3.trans (hgets ns j hj).symm)
  · have h1 := hgetm ms.machine_names i2 hi2
    have h2 := hgetm ms.machine_names j2 hj2
    have h3 : some (⟨i2 % 65536⟩ : SmHandle) = some ⟨j2 % 65536⟩ := by
      rw [hmod2]
    exact ⟨h1, h1.trans (h3.trans h2.symm)⟩
  · exact ⟨builder.buildMapping_state_names d,
      builder.buildMapping_machine_names d⟩
  · exact ⟨rfl, rfl⟩

/-- Witness for C9: in a machine declaring 257 states, positions 0 and 256
receive the same `StateHandle`. -/
theorem c9_handle_truncation_witness :
    ∃ l, exBigStore.statesEnum ⟨0⟩ = some l ∧
      (l.get? 0).map Prod.fst = some ⟨0 % 256⟩ ∧
      (l.get? 256).map Prod.fst = some ⟨256 % 256⟩ ∧
      (l.get? 0).map Prod.fst = (l.get? 256).map Prod.fst :=
  (@c9_handle_truncation Unit Target Target exBigStore ⟨0⟩
    (List.replicate 257 "s") rfl 0 256
    (by rw [List.length_replicate]; omega)
    (by rw [List.length_replicate]; omega) (by decide)).1
